import Mathlib

/-!
Shallow embedding of `os/kernel/binary_manager/binary_manager_binfile.c`
(TizenRT binary manager): the Stale Version Collector
(`binary_manager_clear_binfile`), the Discovery Scanner
(`binary_manager_scan_ubin`) and the Entry-Creation Service
(`binary_manager_create_entry`), together with models of the external
collaborators they call (registry query surface, header parser, message
queue transport, filesystem primitives).

Machine integers of the C source (`int`) are embedded as `Int`; strings
are Lean `String`s; the filesystem directory `BINARY_DIR_PATH` is an
explicit state value.
-/

/-- Result code `BINMGR_OK`. Modelled from the spec: the result-code enum is
declared in `tinyara/binary_manager.h`, which is not under `src/`; the
embedding relies only on `BINMGR_OK` being `0` and the failure codes being
negative and pairwise distinct, which the call sites of `src/` require
(`if (ret < 0)`). -/
def BINMGR_OK : Int := 0

/-- Result code for a filesystem or registration failure (negative). -/
def BINMGR_OPERATION_FAIL : Int := -2

/-- Result code for a malformed request (negative). -/
def BINMGR_INVALID_PARAM : Int := -4

/-- Result code when no inactive kernel partition is available (negative). -/
def BINMGR_NOT_FOUND : Int := -5

/-- Result code when the requested version is already current (negative). -/
def BINMGR_ALREADY_UPDATED : Int := -6

/-- The Persistent Binary Store directory path (`BINARY_DIR_PATH`); the
constant's value is configuration-dependent and immaterial to the claims. -/
def BINARY_DIR_PATH : String := "/bin"

/-- Prefix of per-requester response message-queue names
(`BINMGR_RESPONSE_MQ_PREFIX`, declared outside `src/`); its value is
immaterial, only the derivation `prefixOfMq ++ toString pid` matters. -/
def BINMGR_RESPONSE_MQ_PREFIX : String := "/binmgr_res_"

/-- Result of the external header parser `binary_manager_read_header`
(collaborator, out of scope): the binary's name and version. -/
structure Header where
  bin_name : String
  version : Int
deriving DecidableEq, Repr

/-- One directory entry of the Persistent Binary Store: its `d_name`, whether
it is a regular file (`DIRENT_ISFILE`), and the header the external parser
would return for it (`none` when parsing fails). -/
structure DirEntry where
  d_name : String
  isFile : Bool
  header : Option Header
deriving DecidableEq, Repr

/-- State of the store directory `BINARY_DIR_PATH` as the filesystem
primitives observe it: present with its entries, absent (`opendir`/`open`
fail with `ENOENT`), or inaccessible (they fail with another errno, e.g. an
I/O or permission error). -/
inductive DirState where
  | absent
  | present (entries : List DirEntry)
  | inaccessible
deriving DecidableEq, Repr

/-- Kind of a registered binary. -/
inductive BinKind where
  | Kernel
  | User
deriving DecidableEq, Repr

/-- One Binary Registry slot: name, kind and current version
(`BIN_NAME`/`BIN_VER`). -/
structure BinEntry where
  name : String
  kind : BinKind
  version : Int
deriving DecidableEq, Repr

/-- The kernel Partition Catalog (`binmgr_kinfo_t`): partition count, the
partition numbers, and the index of the partition in use. -/
structure KernelInfo where
  part_count : Nat
  part_info : List Nat
  inuse_idx : Nat
deriving DecidableEq, Repr

/-- Whole-system state seen by the binary manager: the store directory, an
out-of-space flag of the filesystem environment (creating a new file fails
with an errno other than `ENOENT` when set), the Binary Registry and the
Partition Catalog. -/
structure BMState where
  dir : DirState
  fsFull : Bool
  registry : List BinEntry
  kdata : KernelInfo
deriving DecidableEq, Repr

/-- A response message (`binmgr_createbin_response_t`): result code and
resolved path. The C struct's `binpath` is uninitialized on failure paths;
the embedding uses `""` there (no claim reads it on failure). -/
structure Response where
  result : Int
  binpath : String
deriving DecidableEq, Repr

/-- Observable outcome of one `binary_manager_create_entry` invocation: the
function's return value, the updated system state, and the list of
`(queue name, message)` pairs sent through the transport. -/
structure CEOut where
  ret : Int
  state : BMState
  sent : List (String × Response)
deriving DecidableEq, Repr

/-- The running version's file name, `snprintf "%s_%d"`. -/
def runningFileName (binName : String) (ver : Int) : String :=
  binName ++ "_" ++ toString ver

/-- Character of `s` at index `i`, as C's `s[i]` on a NUL-terminated string
(reading index `length` yields the NUL, which the source compares to `'_'`,
embedded as `none`). -/
def charAt (s : String) (i : Nat) : Option Char := s.data.get? i

/-- Embedding of `strncmp(s, p, strlen(p)) == 0`: the first argument (the
pattern `p`) matches an initial segment of the second. -/
def strncmpIsEq : List Char → List Char → Bool
  | [], _ => true
  | _ :: _, [] => false
  | a :: as, b :: bs => a == b && strncmpIsEq as bs

/-- The unlink condition of `binary_manager_clear_binfile` (line 69-70):
the entry is a regular file, its name has the binary's name as a prefix with
`'_'` at the following position, and `strncmp(d_name, running_file,
strlen(running_file))` is nonzero, i.e. the running file name does NOT
match an initial segment of the entry name. -/
def staleMatch (binName rf : String) (e : DirEntry) : Bool :=
  e.isFile && strncmpIsEq binName.data e.d_name.data
    && (charAt e.d_name binName.length == some '_')
    && !(strncmpIsEq rf.data e.d_name.data)

/-- Embedding of `binary_manager_clear_binfile` (src lines 46-83) over the
slot's name and running version (`BIN_NAME(bin_idx)`, `BIN_VER(bin_idx)`):
unlinks every entry satisfying `staleMatch`; absence of the directory is
success, any other `opendir` failure returns `BINMGR_OPERATION_FAIL`. -/
def binary_manager_clear_binfile (binName : String) (runningVer : Int)
    (d : DirState) : Int × DirState :=
  let rf := runningFileName binName runningVer
  match d with
  | .present es =>
      (BINMGR_OK, .present (es.filter (fun e => !(staleMatch binName rf e))))
  | .absent => (BINMGR_OK, .absent)
  | .inaccessible => (BINMGR_OPERATION_FAIL, .inaccessible)

/-- Modelled from the spec: `binary_manager_register_ubin` (registry
surface, not under `src/`): "if the named binary is not already present in
the Binary Registry, it is registered with kind = User"
(`register_if_absent`). The call sites in `src/` pass only the name, so the
new slot's version field starts at its zero-initialized value; returns a
non-negative value on success. -/
def binary_manager_register_ubin (name : String) (reg : List BinEntry) :
    Int × List BinEntry :=
  if reg.any (fun b => b.name == name) then (BINMGR_OK, reg)
  else (BINMGR_OK, reg ++ [⟨name, BinKind.User, 0⟩])

/-- Body of the scan loop of `binary_manager_scan_ubin` (src lines 106-122)
for one directory entry: regular files whose header parses are registered;
parse failures are skipped. -/
def scanStep (reg : List BinEntry) (e : DirEntry) : List BinEntry :=
  if e.isFile then
    match e.header with
    | some h => (binary_manager_register_ubin h.bin_name reg).2
    | none => reg
  else reg

/-- Embedding of `binary_manager_scan_ubin` (src lines 95-127): folds the
scan loop over the store's entries; an absent or inaccessible directory
leaves the state unchanged (the failure is only logged). -/
def binary_manager_scan_ubin (s : BMState) : BMState :=
  match s.dir with
  | .present es => { s with registry := es.foldl scanStep s.registry }
  | _ => s

/-- The response message-queue name derived from the requester's identity
(`snprintf "%s%d"`, src line 211). -/
def mqName (pid : Int) : String := BINMGR_RESPONSE_MQ_PREFIX ++ toString pid

/-- Modelled from the spec: `BINMGR_DEVNAME_FMT` (not under `src/`), the
fixed-format device path parameterized by a partition number. -/
def devname (partNum : Nat) : String := "/dev/mtdblock" ++ toString partNum

/-- The target file path `snprintf "%s/%s_%d"` (src line 190). -/
def filePathOf (binName : String) (version : Int) : String :=
  BINARY_DIR_PATH ++ "/" ++ binName ++ "_" ++ toString version

/-- Outcome of `open(filepath, O_RDWR | O_CREAT, 0666)` on the store. -/
inductive OpenResult where
  | ok (d : DirState)
  | enoent
  | otherFail
deriving DecidableEq, Repr

/-- The filesystem primitive `open` with `O_RDWR | O_CREAT` on
`BINARY_DIR_PATH/fname`: fails with `ENOENT` when the directory is absent,
with another errno when it is inaccessible, when the name exists as a
non-file, or when the filesystem is full; otherwise succeeds, creating the
(empty, unparseable) file when it does not yet exist. -/
def openCreat (fname : String) (full : Bool) (d : DirState) : OpenResult :=
  match d with
  | .absent => .enoent
  | .inaccessible => .otherFail
  | .present es =>
      match es.find? (fun e => e.d_name == fname) with
      | some e => if e.isFile then .ok (.present es) else .otherFail
      | none =>
          if full then .otherFail
          else .ok (.present (es ++ [⟨fname, true, none⟩]))

/-- The filesystem primitive `mkdir(BINARY_DIR_PATH, 0777)`: succeeds
exactly when the directory is absent. -/
def mkdirStore (d : DirState) : Int × DirState :=
  match d with
  | .absent => (0, .present [])
  | _ => (-1, d)

/-- The file-creation tail of `binary_manager_create_entry` (src lines
187-209): result preset to `BINMGR_OPERATION_FAIL`; on `ENOENT` the
directory is created and the `open` retried exactly once. -/
def tryCreateFile (binName : String) (version : Int) (full : Bool)
    (d : DirState) : Response × DirState :=
  let fname := binName ++ "_" ++ toString version
  match openCreat fname full d with
  | .ok d2 => (⟨BINMGR_OK, filePathOf binName version⟩, d2)
  | .enoent =>
      let md := mkdirStore d
      if md.1 = 0 then
        match openCreat fname full md.2 with
        | .ok d2 => (⟨BINMGR_OK, filePathOf binName version⟩, d2)
        | _ => (⟨BINMGR_OPERATION_FAIL, ""⟩, md.2)
      else (⟨BINMGR_OPERATION_FAIL, ""⟩, md.2)
  | .otherFail => (⟨BINMGR_OPERATION_FAIL, ""⟩, d)

/-- The body of `binary_manager_create_entry` up to the `send_result` label
(src lines 146-209): computes the response message and the updated state.
`bin_name` is `Option String` to embed the C `NULL` pointer; the registry
lookup `binary_manager_get_index_with_name` (not under `src/`) is modelled
from the spec as the first slot with the given name. -/
def createEntryCore (requester_pid : Int) (bin_name : Option String)
    (version : Int) (s : BMState) : Response × BMState :=
  if requester_pid < 0 ∨ bin_name = none ∨ version < 0 then
    (⟨BINMGR_INVALID_PARAM, ""⟩, s)
  else
    let name := bin_name.getD ""
    if name = "kernel" then
      let k := s.kdata
      if k.part_count > 1 then
        (⟨BINMGR_OK, devname (k.part_info.getD (k.inuse_idx ^^^ 1) 0)⟩, s)
      else
        (⟨BINMGR_NOT_FOUND, ""⟩, s)
    else
      match s.registry.find? (fun b => b.name == name) with
      | some b =>
          if b.version = version then
            (⟨BINMGR_ALREADY_UPDATED, ""⟩, s)
          else
            let cd := binary_manager_clear_binfile b.name b.version s.dir
            let s1 : BMState := { s with dir := cd.2 }
            if cd.1 < 0 then (⟨cd.1, ""⟩, s1)
            else
              let rd := tryCreateFile name version s1.fsFull s1.dir
              (rd.1, { s1 with dir := rd.2 })
      | none =>
          let rr := binary_manager_register_ubin name s.registry
          let s1 : BMState := { s with registry := rr.2 }
          if rr.1 < 0 then (⟨BINMGR_OPERATION_FAIL, ""⟩, s1)
          else
            let rd := tryCreateFile name version s1.fsFull s1.dir
            (rd.1, { s1 with dir := rd.2 })

/-- Embedding of `binary_manager_create_entry` (src lines 136-215): every
path of the body jumps to the single `send_result` label, which sends the
response message to the queue named after the requester and returns the
response's result code. -/
def binary_manager_create_entry (requester_pid : Int)
    (bin_name : Option String) (version : Int) (s : BMState) : CEOut :=
  let rs := createEntryCore requester_pid bin_name version s
  { ret := rs.1.result, state := rs.2, sent := [(mqName requester_pid, rs.1)] }

/-- Concrete Partition Catalog used by concrete evaluations. -/
def K0 : KernelInfo := ⟨2, [3, 4], 0⟩

/-- Concrete state: empty store directory, empty registry. -/
def S_empty : BMState := ⟨.present [], false, [], K0⟩

/-- Concrete state: store directory absent, empty registry. -/
def S_noDir : BMState := ⟨.absent, false, [], K0⟩

/-- C1: evaluating the Stale Version Collector at slot name `foo`, running
version `1`, on a store holding `foo_1`, `foo_2`, `foo_12` and `foobar_1`:
the call succeeds and removes `foo_2`, but `foo_12` — a `foo_*` file of a
version other than the running one — survives, because the running-version
check `strncmp(d_name, running_file, strlen(running_file))` is a prefix
test; the claim requires `foo_1` to be the only remaining `foo_*` file. -/
theorem clear_binfile_keeps_version_extension :
    binary_manager_clear_binfile "foo" 1
      (DirState.present [⟨"foo_1", true, none⟩, ⟨"foo_2", true, none⟩,
        ⟨"foo_12", true, none⟩, ⟨"foobar_1", true, none⟩])
      = (BINMGR_OK, DirState.present [⟨"foo_1", true, none⟩,
        ⟨"foo_12", true, none⟩, ⟨"foobar_1", true, none⟩]) := by
  decide

/-- C2: every invocation of `binary_manager_create_entry`, on every path and
for every outcome, sends exactly one response message, addressed to the
queue deterministically derived from the requester's identity. -/
theorem create_entry_exactly_one_response (pid : Int)
    (bin_name : Option String) (version : Int) (s : BMState) :
    (binary_manager_create_entry pid bin_name version s).sent.map Prod.fst
      = [mqName pid] := rfl

/-- C10: the integer returned by `binary_manager_create_entry` equals the
result code carried in the single response message it sends. -/
theorem create_entry_return_matches_response (pid : Int)
    (bin_name : Option String) (version : Int) (s : BMState) :
    (binary_manager_create_entry pid bin_name version s).sent.map
        (fun m => m.2.result)
      = [(binary_manager_create_entry pid bin_name version s).ret] := rfl

/-- C3 counterexample: a request with a present but empty binary name is not
rejected: on an empty registry with an empty store directory it returns
`BINMGR_OK` (not `BINMGR_INVALID_PARAM`) and mutates both the filesystem
(file `_1` is created) and the registry (slot `""` is registered). -/
theorem create_entry_empty_name_accepted :
    (binary_manager_create_entry 1 (some "") 1 S_empty).ret = BINMGR_OK ∧
    BINMGR_OK ≠ BINMGR_INVALID_PARAM ∧
    (binary_manager_create_entry 1 (some "") 1 S_empty).state ≠ S_empty := by
  refine ⟨rfl, by decide, by decide⟩

/-- Concrete store with one file whose header parses to name `a`,
version `2`. -/
def S_scanA2 : BMState :=
  ⟨.present [⟨"a_2", true, some ⟨"a", 2⟩⟩], false, [], K0⟩

/-- C6 counterexample: scanning a store holding one file whose parsed header
carries name `a` and version `2` registers `a` with version `0`, not with
the header's version `2`: the scan loop passes only `header_data.bin_name`
to registration (src line 120), so the parsed version never reaches the
registry. -/
theorem scan_drops_header_version :
    (binary_manager_scan_ubin S_scanA2).registry
      = [⟨"a", BinKind.User, 0⟩] ∧ (0 : Int) ≠ 2 := by
  refine ⟨rfl, by decide⟩

theorem register_ubin_append (name : String) (reg : List BinEntry) :
    ∃ t, (binary_manager_register_ubin name reg).2 = reg ++ t := by
  unfold binary_manager_register_ubin
  split
  · exact ⟨[], (List.append_nil reg).symm⟩
  · exact ⟨[⟨name, BinKind.User, 0⟩], rfl⟩

theorem register_ubin_ret (name : String) (reg : List BinEntry) :
    (binary_manager_register_ubin name reg).1 = BINMGR_OK := by
  unfold binary_manager_register_ubin
  split <;> rfl

theorem scanStep_append (reg : List BinEntry) (e : DirEntry) :
    ∃ t, scanStep reg e = reg ++ t := by
  unfold scanStep
  split
  · cases hh : e.header with
    | some h => exact register_ubin_append h.bin_name reg
    | none => exact ⟨[], (List.append_nil reg).symm⟩
  · exact ⟨[], (List.append_nil reg).symm⟩

theorem foldl_scanStep_append (l : List DirEntry) (reg : List BinEntry) :
    ∃ t, l.foldl scanStep reg = reg ++ t := by
  induction l generalizing reg with
  | nil => exact ⟨[], (List.append_nil reg).symm⟩
  | cons e l ih =>
      obtain ⟨t0, h0⟩ := scanStep_append reg e
      obtain ⟨t1, h1⟩ := ih (scanStep reg e)
      exact ⟨t0 ++ t1, by
        rw [List.foldl_cons, h1, h0, List.append_assoc]⟩

theorem scan_registry_append (s : BMState) :
    ∃ t, (binary_manager_scan_ubin s).registry = s.registry ++ t := by
  unfold binary_manager_scan_ubin
  cases hd : s.dir with
  | present es => simpa using foldl_scanStep_append es s.registry
  | absent => exact ⟨[], (List.append_nil _).symm⟩
  | inaccessible => exact ⟨[], (List.append_nil _).symm⟩

/-- C7: the Discovery Scanner only grows the Binary Registry: after one or
two runs of the scan the original registry is an unchanged initial segment
of the result (so no pre-existing entry is removed or altered); and
scanning a store holding `a_1` and `a_2` (same binary, two versions)
registers the binary `a` exactly once. -/
theorem scan_additive_only (s : BMState) :
    (∃ t, (binary_manager_scan_ubin s).registry = s.registry ++ t) ∧
    (∃ t, (binary_manager_scan_ubin (binary_manager_scan_ubin s)).registry
        = s.registry ++ t) ∧
    ((binary_manager_scan_ubin ⟨.present [⟨"a_1", true, some ⟨"a", 1⟩⟩,
        ⟨"a_2", true, some ⟨"a", 2⟩⟩], false, [], K0⟩).registry.countP
      (fun b => b.name == "a") = 1) := by
  refine ⟨scan_registry_append s, ?_, by decide⟩
  obtain ⟨t1, h1⟩ := scan_registry_append s
  obtain ⟨t2, h2⟩ := scan_registry_append (binary_manager_scan_ubin s)
  exact ⟨t1 ++ t2, by rw [h2, h1, List.append_assoc]⟩

theorem register_ubin_mem_cases (name : String) (reg : List BinEntry)
    (b : BinEntry) (hb : b ∈ (binary_manager_register_ubin name reg).2) :
    b ∈ reg ∨ b = ⟨name, BinKind.User, 0⟩ := by
  unfold binary_manager_register_ubin at hb
  split at hb
  · exact Or.inl hb
  · rcases List.mem_append.mp hb with h | h
    · exact Or.inl h
    · exact Or.inr (List.mem_singleton.mp h)

theorem scanStep_mem_cases (reg : List BinEntry) (e : DirEntry)
    (b : BinEntry) (hb : b ∈ scanStep reg e) :
    b ∈ reg ∨ b.kind = BinKind.User := by
  unfold scanStep at hb
  split at hb
  · split at hb
    · rcases register_ubin_mem_cases _ reg b hb with h | h
      · exact Or.inl h
      · exact Or.inr (by rw [h])
    · exact Or.inl hb
  · exact Or.inl hb

theorem foldl_scanStep_mem_cases (l : List DirEntry) (reg : List BinEntry)
    (b : BinEntry) (hb : b ∈ l.foldl scanStep reg) :
    b ∈ reg ∨ b.kind = BinKind.User := by
  induction l generalizing reg with
  | nil => exact Or.inl hb
  | cons e l ih =>
      rcases ih (scanStep reg e) (by simpa using hb) with h | h
      · exact scanStep_mem_cases reg e b h
      · exact Or.inr h

theorem mem_foldl_scanStep (l : List DirEntry) (reg : List BinEntry)
    (b : BinEntry) (hb : b ∈ reg) : b ∈ l.foldl scanStep reg := by
  obtain ⟨t, ht⟩ := foldl_scanStep_append l reg
  rw [ht]
  exact List.mem_append_left _ hb

theorem scanStep_registers (reg : List BinEntry) (e : DirEntry) (h : Header)
    (hf : e.isFile = true) (hh : e.header = some h) :
    ∃ b ∈ scanStep reg e, b.name = h.bin_name := by
  unfold scanStep
  rw [hf, hh]
  simp only [if_true]
  unfold binary_manager_register_ubin
  split
  · rename_i hany
    obtain ⟨b, hb, hbn⟩ := List.any_eq_true.mp hany
    exact ⟨b, hb, by simpa using hbn⟩
  · exact ⟨⟨h.bin_name, BinKind.User, 0⟩,
      List.mem_append_right _ (List.mem_singleton_self _), rfl⟩

/-- C6 amended: for every regular file of the store whose header parses
during the scan, if the binary named in the header is not already in the
registry, it ends up registered with kind = User; the header's version is
not recorded (the scan loop passes only the name to registration). -/
theorem scan_registers_parsed_binaries (s : BMState) (es : List DirEntry)
    (e : DirEntry) (h : Header) (hdir : s.dir = DirState.present es)
    (he : e ∈ es) (hf : e.isFile = true) (hh : e.header = some h)
    (hnew : ∀ b ∈ s.registry, b.name ≠ h.bin_name) :
    ∃ b ∈ (binary_manager_scan_ubin s).registry,
      b.name = h.bin_name ∧ b.kind = BinKind.User := by
  obtain ⟨l1, l2, hes⟩ := List.append_of_mem he
  have hsplit : (binary_manager_scan_ubin s).registry
      = l2.foldl scanStep (scanStep (l1.foldl scanStep s.registry) e) := by
    unfold binary_manager_scan_ubin
    rw [hdir, hes]
    simp [List.foldl_append]
  obtain ⟨b, hb, hbn⟩ := scanStep_registers (l1.foldl scanStep s.registry) e h hf hh
  have hkind : b.kind = BinKind.User := by
    rcases scanStep_mem_cases _ e b hb with h1 | h1
    · rcases foldl_scanStep_mem_cases l1 s.registry b h1 with h2 | h2
      · exact absurd hbn (hnew b h2)
      · exact h2
    · exact h1
  refine ⟨b, ?_, hbn, hkind⟩
  rw [hsplit]
  exact mem_foldl_scanStep l2 _ b hb

/-- C6 amended witness: on a store with the single file `a_2` whose header
parses to name `a`, version `2`, over an empty registry, the scan registers
a slot named `a` with kind User. -/
theorem scan_registers_parsed_binaries_witness :
    ∃ b ∈ (binary_manager_scan_ubin S_scanA2).registry,
      b.name = "a" ∧ b.kind = BinKind.User :=
  scan_registers_parsed_binaries S_scanA2 [⟨"a_2", true, some ⟨"a", 2⟩⟩]
    ⟨"a_2", true, some ⟨"a", 2⟩⟩ ⟨"a", 2⟩ rfl (List.mem_singleton_self _)
    rfl rfl (by intro b hb; simp [S_scanA2] at hb)

theorem valid_request (pid : Int) (name : String) (version : Int)
    (hp : 0 ≤ pid) (hv : 0 ≤ version) :
    ¬(pid < 0 ∨ some name = (none : Option String) ∨ version < 0) := by
  push_neg
  exact ⟨hp, by simp, hv⟩

/-- C3 amended: a request with a negative requester identity, an absent
(null) binary name, or a negative requested version yields
`BINMGR_INVALID_PARAM` and leaves the whole state (filesystem and registry)
unchanged; an empty-but-present name is not rejected. -/
theorem create_entry_invalid_param (pid : Int) (bin_name : Option String)
    (version : Int) (s : BMState)
    (h : pid < 0 ∨ bin_name = none ∨ version < 0) :
    (binary_manager_create_entry pid bin_name version s).ret
      = BINMGR_INVALID_PARAM ∧
    (binary_manager_create_entry pid bin_name version s).state = s := by
  have hcore : createEntryCore pid bin_name version s
      = (⟨BINMGR_INVALID_PARAM, ""⟩, s) := by
    unfold createEntryCore
    rw [if_pos h]
  constructor <;> simp [binary_manager_create_entry, hcore]

/-- C3 amended witness at a concrete negative requester identity. -/
theorem create_entry_invalid_param_witness :
    (binary_manager_create_entry (-1) (some "app") 1 S_empty).ret
      = BINMGR_INVALID_PARAM ∧
    (binary_manager_create_entry (-1) (some "app") 1 S_empty).state
      = S_empty :=
  create_entry_invalid_param (-1) (some "app") 1 S_empty (Or.inl (by decide))

theorem createEntryCore_kernel (pid version : Int) (s : BMState)
    (hp : 0 ≤ pid) (hv : 0 ≤ version) :
    createEntryCore pid (some "kernel") version s =
      if s.kdata.part_count > 1 then
        (⟨BINMGR_OK,
          devname (s.kdata.part_info.getD (s.kdata.inuse_idx ^^^ 1) 0)⟩, s)
      else (⟨BINMGR_NOT_FOUND, ""⟩, s) := by
  unfold createEntryCore
  rw [if_neg (valid_request pid "kernel" version hp hv)]
  rfl

/-- C4: for every valid request naming `kernel`: with a two-partition
catalog and in-use index 0 the service answers `BINMGR_OK` with the device
path of partition index 1; with in-use index 1, partition index 0; with a
single partition it answers `BINMGR_NOT_FOUND`; and in every kernel case
the state (store and registry) is unchanged. -/
theorem create_entry_kernel_cases (pid version : Int) (s : BMState)
    (hp : 0 ≤ pid) (hv : 0 ≤ version) :
    (s.kdata.part_count = 2 → s.kdata.inuse_idx = 0 →
      (binary_manager_create_entry pid (some "kernel") version s).ret
        = BINMGR_OK ∧
      (binary_manager_create_entry pid (some "kernel") version s).sent.map
          (fun m => m.2.binpath)
        = [devname (s.kdata.part_info.getD 1 0)]) ∧
    (s.kdata.part_count = 2 → s.kdata.inuse_idx = 1 →
      (binary_manager_create_entry pid (some "kernel") version s).ret
        = BINMGR_OK ∧
      (binary_manager_create_entry pid (some "kernel") version s).sent.map
          (fun m => m.2.binpath)
        = [devname (s.kdata.part_info.getD 0 0)]) ∧
    (s.kdata.part_count = 1 →
      (binary_manager_create_entry pid (some "kernel") version s).ret
        = BINMGR_NOT_FOUND) ∧
    (binary_manager_create_entry pid (some "kernel") version s).state = s := by
  have hcore := createEntryCore_kernel pid version s hp hv
  refine ⟨?_, ?_, ?_, ?_⟩
  · intro h2 h0
    rw [h2, h0] at hcore
    have hx : (0 : Nat) ^^^ 1 = 1 := rfl
    rw [hx] at hcore
    norm_num at hcore
    constructor <;> simp [binary_manager_create_entry, hcore]
  · intro h2 h1
    rw [h2, h1] at hcore
    have hx : (1 : Nat) ^^^ 1 = 0 := rfl
    rw [hx] at hcore
    norm_num at hcore
    constructor <;> simp [binary_manager_create_entry, hcore]
  · intro h1
    rw [h1] at hcore
    norm_num at hcore
    simp [binary_manager_create_entry, hcore]
  · simp only [binary_manager_create_entry]
    rw [hcore]
    split <;> rfl

/-- C4 witness: concrete two-partition catalog with in-use index 0. -/
theorem create_entry_kernel_cases_witness :
    (binary_manager_create_entry 1 (some "kernel") 1 S_empty).ret
      = BINMGR_OK ∧
    (binary_manager_create_entry 1 (some "kernel") 1 S_empty).state
      = S_empty := by
  have h := create_entry_kernel_cases 1 1 S_empty (by decide) (by decide)
  exact ⟨(h.1 rfl rfl).1, h.2.2.2⟩

/-- C5: when the requested version equals the slot's current version, the
service answers `BINMGR_ALREADY_UPDATED` and leaves the whole state
(filesystem and registry) unchanged; since the state is unchanged, a second
identical request answers `BINMGR_ALREADY_UPDATED` again and creates no
file. -/
theorem create_entry_already_updated (pid version : Int) (name : String)
    (s : BMState) (b : BinEntry) (hp : 0 ≤ pid) (hv : 0 ≤ version)
    (hk : name ≠ "kernel")
    (hfind : s.registry.find? (fun x => x.name == name) = some b)
    (hver : b.version = version) :
    (binary_manager_create_entry pid (some name) version s).ret
      = BINMGR_ALREADY_UPDATED ∧
    (binary_manager_create_entry pid (some name) version s).state = s ∧
    (binary_manager_create_entry pid (some name) version
        ((binary_manager_create_entry pid (some name) version s).state)).ret
      = BINMGR_ALREADY_UPDATED := by
  have hcore : createEntryCore pid (some name) version s
      = (⟨BINMGR_ALREADY_UPDATED, ""⟩, s) := by
    unfold createEntryCore
    rw [if_neg (valid_request pid name version hp hv)]
    simp only [Option.getD_some]
    rw [if_neg hk, hfind]
    simp [hver]
  have hstate : (binary_manager_create_entry pid (some name) version s).state
      = s := by
    simp [binary_manager_create_entry, hcore]
  refine ⟨by simp [binary_manager_create_entry, hcore], hstate, ?_⟩
  rw [hstate]
  simp [binary_manager_create_entry, hcore]

/-- State for concrete idempotence checks: slot `app` at version 3. -/
def S_app3 : BMState := ⟨.present [], false, [⟨"app", .User, 3⟩], K0⟩

/-- C5 witness: re-requesting version 3 for the slot `app` already at
version 3 answers `BINMGR_ALREADY_UPDATED` without mutating the state. -/
theorem create_entry_already_updated_witness :
    (binary_manager_create_entry 1 (some "app") 3 S_app3).ret
      = BINMGR_ALREADY_UPDATED ∧
    (binary_manager_create_entry 1 (some "app") 3 S_app3).state = S_app3 := by
  have h := create_entry_already_updated 1 3 "app" S_app3 ⟨"app", .User, 3⟩
    (by decide) (by decide) (by decide) (by decide) rfl
  exact ⟨h.1, h.2.1⟩

/-- C8: the Stale Version Collector succeeds when the store directory is
absent, fails with `BINMGR_OPERATION_FAIL` when opening the existing
directory fails for another reason, and that failure aborts the enclosing
entry-creation request for a registered slot with a differing version: the
request returns `BINMGR_OPERATION_FAIL` and no versioned file is created
(the state is unchanged). -/
theorem create_entry_clear_failure_aborts (bn : String)
    (ver pid version : Int) (name : String) (fl : Bool)
    (reg : List BinEntry) (k : KernelInfo) (b : BinEntry)
    (hp : 0 ≤ pid) (hv : 0 ≤ version) (hk : name ≠ "kernel")
    (hfind : reg.find? (fun x => x.name == name) = some b)
    (hver : b.version ≠ version) :
    binary_manager_clear_binfile bn ver DirState.absent
      = (BINMGR_OK, DirState.absent) ∧
    binary_manager_clear_binfile bn ver DirState.inaccessible
      = (BINMGR_OPERATION_FAIL, DirState.inaccessible) ∧
    (binary_manager_create_entry pid (some name) version
        ⟨DirState.inaccessible, fl, reg, k⟩).ret = BINMGR_OPERATION_FAIL ∧
    (binary_manager_create_entry pid (some name) version
        ⟨DirState.inaccessible, fl, reg, k⟩).state
      = ⟨DirState.inaccessible, fl, reg, k⟩ := by
  have hcore : createEntryCore pid (some name) version
      ⟨DirState.inaccessible, fl, reg, k⟩
      = (⟨BINMGR_OPERATION_FAIL, ""⟩,
         ⟨DirState.inaccessible, fl, reg, k⟩) := by
    unfold createEntryCore
    rw [if_neg (valid_request pid name version hp hv)]
    simp only [Option.getD_some]
    rw [if_neg hk]
    simp only [hfind, if_neg hver]
    rfl
  refine ⟨rfl, rfl, ?_, ?_⟩ <;> simp [binary_manager_create_entry, hcore]

/-- State for the concrete collector-failure check: slot `app` at version 3
and an inaccessible store directory. -/
def S_inacc : BMState := ⟨.inaccessible, false, [⟨"app", .User, 3⟩], K0⟩

/-- C8 witness: requesting version 4 for slot `app` (current version 3)
while the store directory is inaccessible returns `BINMGR_OPERATION_FAIL`
and leaves the state unchanged. -/
theorem create_entry_clear_failure_aborts_witness :
    (binary_manager_create_entry 1 (some "app") 4 S_inacc).ret
      = BINMGR_OPERATION_FAIL ∧
    (binary_manager_create_entry 1 (some "app") 4 S_inacc).state
      = S_inacc := by
  have h := create_entry_clear_failure_aborts "x" 0 1 4 "app" false
    [⟨"app", .User, 3⟩] K0 ⟨"app", .User, 3⟩ (by decide) (by decide)
    (by decide) (by decide) (by decide)
  exact ⟨h.2.2.1, h.2.2.2⟩

theorem createEntryCore_new_user (pid version : Int) (name : String)
    (d : DirState) (fl : Bool) (reg : List BinEntry) (k : KernelInfo)
    (hp : 0 ≤ pid) (hv : 0 ≤ version) (hk : name ≠ "kernel")
    (hfind : reg.find? (fun x => x.name == name) = none) :
    createEntryCore pid (some name) version ⟨d, fl, reg, k⟩ =
      ((tryCreateFile name version fl d).1,
       ⟨(tryCreateFile name version fl d).2, fl,
        (binary_manager_register_ubin name reg).2, k⟩) := by
  unfold createEntryCore
  rw [if_neg (valid_request pid name version hp hv)]
  simp only [Option.getD_some]
  rw [if_neg hk]
  simp only [hfind, register_ubin_ret]
  norm_num [BINMGR_OK]

theorem tryCreateFile_absent (n : String) (v : Int) :
    tryCreateFile n v false DirState.absent
      = (⟨BINMGR_OK, filePathOf n v⟩,
         DirState.present [⟨n ++ "_" ++ toString v, true, none⟩]) := rfl

theorem tryCreateFile_absent_full (n : String) (v : Int) :
    tryCreateFile n v true DirState.absent
      = (⟨BINMGR_OPERATION_FAIL, ""⟩, DirState.present []) := rfl

theorem tryCreateFile_inaccessible (n : String) (v : Int) (full : Bool) :
    tryCreateFile n v full DirState.inaccessible
      = (⟨BINMGR_OPERATION_FAIL, ""⟩, DirState.inaccessible) := rfl

/-- C9: on the user path with an unregistered name, when file creation
fails because the store directory is absent, the directory is created and
the creation retried exactly once: with a working filesystem the retry
succeeds, so the request returns `BINMGR_OK` with the file created and
`resolved_path` set; if the single retry also fails (full filesystem) the
result is `BINMGR_OPERATION_FAIL` with the directory created but no file;
any other creation failure (inaccessible directory) yields
`BINMGR_OPERATION_FAIL` directly; in particular, create-entry for the new
user binary `app`, version 1, with no store directory present creates the
directory and the file `app_1` and returns `BINMGR_OK` with its path. -/
theorem create_entry_auto_mkdir (pid version : Int) (name : String)
    (fl : Bool) (reg : List BinEntry) (k : KernelInfo)
    (hp : 0 ≤ pid) (hv : 0 ≤ version) (hk : name ≠ "kernel")
    (hfind : reg.find? (fun x => x.name == name) = none) :
    ((binary_manager_create_entry pid (some name) version
        ⟨DirState.absent, false, reg, k⟩).ret = BINMGR_OK ∧
     (binary_manager_create_entry pid (some name) version
        ⟨DirState.absent, false, reg, k⟩).state.dir
       = DirState.present [⟨name ++ "_" ++ toString version, true, none⟩] ∧
     (binary_manager_create_entry pid (some name) version
        ⟨DirState.absent, false, reg, k⟩).sent.map (fun m => m.2.binpath)
       = [filePathOf name version]) ∧
    ((binary_manager_create_entry pid (some name) version
        ⟨DirState.absent, true, reg, k⟩).ret = BINMGR_OPERATION_FAIL ∧
     (binary_manager_create_entry pid (some name) version
        ⟨DirState.absent, true, reg, k⟩).state.dir = DirState.present []) ∧
    ((binary_manager_create_entry pid (some name) version
        ⟨DirState.inaccessible, fl, reg, k⟩).ret = BINMGR_OPERATION_FAIL ∧
     (binary_manager_create_entry pid (some name) version
        ⟨DirState.inaccessible, fl, reg, k⟩).state.dir
       = DirState.inaccessible) ∧
    ((binary_manager_create_entry 1 (some "app") 1 S_noDir).ret = BINMGR_OK ∧
     (binary_manager_create_entry 1 (some "app") 1 S_noDir).state.dir
       = DirState.present [⟨"app_1", true, none⟩] ∧
     (binary_manager_create_entry 1 (some "app") 1 S_noDir).sent.map
        (fun m => m.2.binpath) = [filePathOf "app" 1]) := by
  refine ⟨?_, ?_, ?_, by refine ⟨rfl, rfl, rfl⟩⟩
  · have hcore := createEntryCore_new_user pid version name DirState.absent
      false reg k hp hv hk hfind
    rw [tryCreateFile_absent] at hcore
    refine ⟨?_, ?_, ?_⟩ <;> simp [binary_manager_create_entry, hcore]
  · have hcore := createEntryCore_new_user pid version name DirState.absent
      true reg k hp hv hk hfind
    rw [tryCreateFile_absent_full] at hcore
    constructor <;> simp [binary_manager_create_entry, hcore]
  · have hcore := createEntryCore_new_user pid version name
      DirState.inaccessible fl reg k hp hv hk hfind
    rw [tryCreateFile_inaccessible] at hcore
    constructor <;> simp [binary_manager_create_entry, hcore]

/-- C9 witness: the concrete `app`, version 1, no-directory scenario. -/
theorem create_entry_auto_mkdir_witness :
    (binary_manager_create_entry 1 (some "app") 1 S_noDir).ret = BINMGR_OK ∧
    (binary_manager_create_entry 1 (some "app") 1 S_noDir).state.dir
      = DirState.present [⟨"app_1", true, none⟩] := by
  have h := create_entry_auto_mkdir 1 1 "app" false [] K0
    (by decide) (by decide) (by decide) rfl
  exact ⟨h.2.2.2.1, h.2.2.2.2.1⟩
